import Mathlib

/-!
Verification development for the stemify python API (src/python-api/main.py),
a thin HTTP adapter that forwards audio-separation requests to a remote
Demucs provider and relays the output stems to object storage.

The pure domain logic (stem naming, parameter resolution, owner-id
extraction) is embedded directly; the request handler `separate_audio` is
embedded with its external collaborators (the remote separation call, the
storage client, the filesystem) passed in as explicit parameters, and it
returns — besides the HTTP response — the argument record of the remote
call and the list of attempted uploads, so that "no upload is attempted"
style properties are statable.
-/

/-- The incoming request body of POST /separate (`SeparationRequest` in
main.py), with the pydantic defaults. `overlap` is a python float carrying
only values such as 0.25 that are exactly representable; it is embedded as
`Rat`. `shifts` is a python int, embedded as `Int`. Optional fields are
`Option`s, with python `None` as `none`. -/
structure SeparationRequest where
  audio_url : String
  model : String := "htdemucs_ft"
  two_stems : String := "None"
  overlap : Rat := 1/4
  shifts : Int := 0
  audio_format : String := "wav"
  selected_stems : Option (List String) := none
  quality : Option String := some "standard"
deriving Repr, DecidableEq

/-- `get_stem_name` from main.py: maps an output file's positional index to
a stem label, given the resolved two-stem target and model. -/
def get_stem_name (index : Nat) (two_stems : String) (model : String) : String :=
  if two_stems ≠ "None" then
    -- two-stem mode: first file is the selected stem, second is everything else
    if index = 0 then two_stems else "no_" ++ two_stems
  else
    let stem_names_4 : List String := ["vocals", "drums", "bass", "other"]
    let stem_names_6 : List String := ["vocals", "drums", "bass", "other", "guitar", "piano"]
    if model = "htdemucs_6s" then
      if h : index < stem_names_6.length then stem_names_6.get ⟨index, h⟩
      else "stem_" ++ toString index
    else
      if h : index < stem_names_4.length then stem_names_4.get ⟨index, h⟩
      else "stem_" ++ toString index

/-- The list of stem names accepted for single-stem (two-stem-mode)
extraction in `separate_audio` (main.py line 144). -/
def valid_two_stem_targets : List String :=
  ["vocals", "drums", "bass", "other", "guitar", "piano"]

/-- The two-stem target after the selected-stems step of `separate_audio`
(main.py lines 142-146): a single selected stem from the recognized list
overrides the requested `two_stems`. A python `None` or empty list is
falsy and skips the step. -/
def two_stems_after_selection (req : SeparationRequest) : String :=
  match req.selected_stems with
  | some [stem] =>
      if valid_two_stem_targets.contains stem then stem else req.two_stems
  | _ => req.two_stems

/-- The model after the guitar/piano step of `separate_audio` (main.py
lines 148-151): any occurrence of "guitar" or "piano" in `selected_stems`
forces the six-stem model. The `!stems.isEmpty` conjunct mirrors python's
truthiness test on the list. -/
def model_after_stems (req : SeparationRequest) : String :=
  match req.selected_stems with
  | some stems =>
      if !stems.isEmpty && (stems.contains "guitar" || stems.contains "piano") then
        "htdemucs_6s"
      else req.model
  | none => req.model

/-- The effective parameters handed to the remote call. -/
structure ResolvedParams where
  model : String
  two_stems : String
  overlap : Rat
  shifts : Int
deriving Repr, DecidableEq

/-- Parameter resolution as performed inline by `separate_audio` (main.py
lines 138-161): the selected-stems steps, then the quality step — "pro"
forces overlap 0.25 and shifts 1 and upgrades the base model "htdemucs"
to "htdemucs_ft"; any other quality passes the request's own overlap and
shifts through. -/
def resolve_parameters (req : SeparationRequest) : ResolvedParams :=
  let two_stems := two_stems_after_selection req
  let model := model_after_stems req
  if req.quality = some "pro" then
    { model := if model = "htdemucs" then "htdemucs_ft" else model
      two_stems := two_stems
      overlap := 1/4
      shifts := 1 }
  else
    { model := model
      two_stems := two_stems
      overlap := req.overlap
      shifts := req.shifts }

/-- `user_id` extraction loop of `separate_audio` (main.py lines 121-126):
scan the URL's '/'-separated parts for the first part equal to
"audio-files" that has a following part, and return that following part. -/
def find_user_id : List String → Option String
  | [] => none
  | part :: rest =>
      match rest with
      | next :: _ =>
          if part = "audio-files" then some next else find_user_id rest
      | [] => none

/-- python's `str.split('/')` (main.py line 121), embedded structurally
over the string's characters: split into the (always nonempty) list of
segments between '/' characters, keeping empty segments. -/
def split_slash : List Char → List String
  | [] => [""]
  | c :: cs =>
      if c = '/' then "" :: split_slash cs
      else
        match split_slash cs with
        | head :: tail => String.mk (c :: head.data) :: tail
        | [] => [String.mk [c]]

/-- Owner-id derivation of `separate_audio` (main.py lines 119-129): the
part after the first "audio-files" marker, with python-falsy results (no
marker found, or an empty following part) replaced by "anonymous". -/
def extract_user_id (audio_url : String) : String :=
  match find_user_id (split_slash audio_url.data) with
  | some uid => if uid = "" then "anonymous" else uid
  | none => "anonymous"

/-- One entry of the collection returned by the remote separation call:
it may or may not expose a local `path` (python: a missing attribute or a
`None` value are both `none`; the empty string is handled separately by
the truthiness test in `local_path`). -/
structure OutputEntry where
  path : Option String
deriving Repr, DecidableEq

/-- The keyword arguments of the `demucs.run` remote call (main.py lines
171-178). -/
structure DemucsArgs where
  file_url : String
  model : String
  two_stems : String
  overlap : Rat
  shifts : Int
  audio_format : String
deriving Repr, DecidableEq

/-- One element of the response's `output_files` array. -/
structure OutputFileRecord where
  index : Nat
  url : Option String
  stem_name : String
deriving Repr, DecidableEq

/-- The response's `parameters` object (main.py lines 231-237). -/
structure ResponseParameters where
  model : String
  two_stems : String
  overlap : Rat
  shifts : Int
  audio_format : String
deriving Repr, DecidableEq

/-- The success body of POST /separate (main.py lines 227-238). An
`Except.ok` carrying this value is served as HTTP 200. -/
structure SeparateResponse where
  status : String
  message : String
  output_files : List OutputFileRecord
  parameters : ResponseParameters
deriving Repr, DecidableEq

/-- A raised `HTTPException` (status code and detail string). -/
structure HTTPErrorModel where
  status_code : Nat
  detail : String
deriving Repr, DecidableEq

/-- The storage collaborator. `configured` models whether the supabase
client was initialized (main.py lines 27-32); `upload_result` abstracts
the outcome of the external upload-and-get-public-url interaction for a
given local path, stem name and user id — `none` is any caught upload
failure, `some url` a successful upload. -/
structure StorageState where
  configured : Bool
  upload_result : String → String → String → Option String

/-- `upload_file_to_supabase` from main.py (lines 59-104): with no client
configured it logs and returns no URL (lines 61-63); otherwise the
external SDK interaction decides the result, with every exception caught
and turned into `none` (lines 102-104). It never raises. -/
def upload_file_to_supabase (storage : StorageState)
    (file_path stem_name user_id : String) : Option String :=
  if storage.configured then storage.upload_result file_path stem_name user_id
  else none

/-- One recorded call to `upload_file_to_supabase`. -/
structure UploadAttempt where
  file_path : String
  stem_name : String
  user_id : String
deriving Repr, DecidableEq

/-- The per-entry readable-local-path test of the output loop (main.py
lines 192-198): the entry must expose a `path`, the path must be truthy
(non-empty), and `os.path.exists` (the `fs` parameter) must hold on it. -/
def local_path (fs : String → Bool) (e : OutputEntry) : Option String :=
  match e.path with
  | some p => if p = "" then none else if fs p then some p else none
  | none => none

/-- The output-processing loop of `separate_audio` (main.py lines
185-215), with `i` the running `enumerate` index. Returns the upload
attempts made, the accumulated `output_files` records, and the local
paths queued for cleanup, all in provider order. -/
def process_outputs (storage : StorageState) (fs : String → Bool)
    (two_stems model user_id : String) :
    Nat → List OutputEntry →
      List UploadAttempt × List OutputFileRecord × List String
  | _, [] => ([], [], [])
  | i, e :: rest =>
      match local_path fs e with
      | some p =>
          let stem_name := get_stem_name i two_stems model
          let public_url := upload_file_to_supabase storage p stem_name user_id
          let recs := process_outputs storage fs two_stems model user_id (i + 1) rest
          (⟨p, stem_name, user_id⟩ :: recs.1,
           ⟨i, public_url, stem_name⟩ :: recs.2.1,
           p :: recs.2.2)
      | none => process_outputs storage fs two_stems model user_id (i + 1) rest

/-- The arguments `separate_audio` passes to the remote `demucs.run` call:
the source URL, the resolved parameters, and the request's own
`audio_format` (main.py lines 171-178). -/
def demucs_args_of (req : SeparationRequest) : DemucsArgs :=
  let rp := resolve_parameters req
  { file_url := req.audio_url
    model := rp.model
    two_stems := rp.two_stems
    overlap := rp.overlap
    shifts := rp.shifts
    audio_format := req.audio_format }

/-- Everything observable about one run of the handler: the argument
record of the (single) remote call, the upload attempts, the queued
cleanup paths, and the HTTP outcome. -/
structure SeparateOutcome where
  demucs_args : DemucsArgs
  upload_attempts : List UploadAttempt
  cleanup : List String
  result : Except HTTPErrorModel SeparateResponse

/-- The POST /separate handler `separate_audio` (main.py lines 110-242).
`demucs_run` is the remote separation collaborator: `Except.error msg`
models the call raising with message `msg`, which the handler's
try/except turns into an HTTP 500 with detail
"Failed to complete separation: " ++ msg, attempting no upload. On
success the output loop runs and the completed response is returned
(HTTP 200). -/
def separate_audio (req : SeparationRequest)
    (demucs_run : DemucsArgs → Except String (List OutputEntry))
    (storage : StorageState) (fs : String → Bool) : SeparateOutcome :=
  match demucs_run (demucs_args_of req) with
  | Except.error msg =>
      { demucs_args := demucs_args_of req
        upload_attempts := []
        cleanup := []
        result := Except.error
          { status_code := 500
            detail := "Failed to complete separation: " ++ msg } }
  | Except.ok outputs =>
      { demucs_args := demucs_args_of req
        upload_attempts :=
          (process_outputs storage fs (resolve_parameters req).two_stems
            (resolve_parameters req).model (extract_user_id req.audio_url) 0 outputs).1
        cleanup :=
          (process_outputs storage fs (resolve_parameters req).two_stems
            (resolve_parameters req).model (extract_user_id req.audio_url) 0 outputs).2.2
        result := Except.ok
          { status := "completed"
            message := "Separation completed successfully"
            output_files :=
              (process_outputs storage fs (resolve_parameters req).two_stems
                (resolve_parameters req).model (extract_user_id req.audio_url) 0 outputs).2.1
            parameters :=
              { model := (resolve_parameters req).model
                two_stems := (resolve_parameters req).two_stems
                overlap := (resolve_parameters req).overlap
                shifts := (resolve_parameters req).shifts
                audio_format := req.audio_format } } }

/-! ## Claim C1 -/

/-- C1 counterexample: the claim's vector `name_for(0, "none", "htdemucs")
= "vocals"` is false on the code — the sentinel the code recognizes is
"None", so the lowercase string "none" is treated as a two-stem target
and returned verbatim at index 0. -/
theorem C1_counterexample : get_stem_name 0 "none" "htdemucs" ≠ "vocals" := by
  decide

/-- C1 (amended): with the sentinel spelled "None" as the code has it,
stem naming satisfies all the spec's vectors; totality and determinism
hold by construction (`get_stem_name` is a total function). -/
theorem C1_stem_naming_vectors :
    get_stem_name 0 "None" "htdemucs" = "vocals" ∧
    get_stem_name 3 "None" "htdemucs_6s" = "other" ∧
    get_stem_name 5 "None" "htdemucs_6s" = "piano" ∧
    get_stem_name 7 "None" "htdemucs" = "stem_7" ∧
    ∀ m : String, get_stem_name 0 "vocals" m = "vocals" ∧
      get_stem_name 1 "vocals" m = "no_vocals" := by
  refine ⟨by decide, by decide, by decide, by decide, fun m => ⟨?_, ?_⟩⟩ <;>
    simp [get_stem_name]

/-! ## Claim C9 -/

/-- C9: the "none" sentinel is exactly the string "None"; for any other
two-stem target `s` (lowercase "none" included) the namer returns `s` at
index 0 and "no_" ++ s at every other index, never consulting the stem
tables. -/
theorem C9_sentinel_is_capital_none (s m : String) (hs : s ≠ "None") :
    get_stem_name 0 s m = s ∧
    ∀ i : Nat, i ≠ 0 → get_stem_name i s m = "no_" ++ s := by
  constructor
  · simp [get_stem_name, hs]
  · intro i hi
    simp [get_stem_name, hs, hi]

/-- C9 witness: at the concrete non-sentinel target "none". -/
theorem C9_witness :
    get_stem_name 0 "none" "htdemucs" = "none" ∧
    ∀ i : Nat, i ≠ 0 → get_stem_name i "none" "htdemucs" = "no_" ++ "none" :=
  C9_sentinel_is_capital_none "none" "htdemucs" (by decide)

/-! ## Shared helper lemmas about `resolve_parameters` -/

/-- The quality step never touches the two-stem target. -/
lemma resolve_parameters_two_stems (req : SeparationRequest) :
    (resolve_parameters req).two_stems = two_stems_after_selection req := by
  unfold resolve_parameters
  by_cases hq : req.quality = some "pro" <;> simp [hq]

/-- Off the "pro" tier, overlap and shifts pass through unchanged. -/
lemma resolve_parameters_not_pro (req : SeparationRequest)
    (hq : req.quality ≠ some "pro") :
    (resolve_parameters req).overlap = req.overlap ∧
    (resolve_parameters req).shifts = req.shifts ∧
    (resolve_parameters req).model = model_after_stems req := by
  unfold resolve_parameters
  simp [hq]

/-! ## Claim C2 -/

/-- C2: on the "pro" tier with post-stem-step model "htdemucs", the
resolved model is "htdemucs_ft", overlap 0.25 and shifts 1, regardless of
the request's own overlap/shifts; on any other tier the request's own
overlap and shifts pass through unchanged. -/
theorem C2_pro_quality_resolution (req : SeparationRequest) :
    (req.quality = some "pro" → model_after_stems req = "htdemucs" →
      (resolve_parameters req).model = "htdemucs_ft" ∧
      (resolve_parameters req).overlap = 1/4 ∧
      (resolve_parameters req).shifts = 1) ∧
    (req.quality ≠ some "pro" →
      (resolve_parameters req).overlap = req.overlap ∧
      (resolve_parameters req).shifts = req.shifts) := by
  constructor
  · intro hq hm
    unfold resolve_parameters
    simp [hq, hm]
  · intro hq
    exact ⟨(resolve_parameters_not_pro req hq).1, (resolve_parameters_not_pro req hq).2.1⟩

/-- A concrete "pro" request with the base four-stem model. -/
def req_pro : SeparationRequest :=
  { audio_url := "http://example.com/a.mp3"
    model := "htdemucs"
    overlap := 7/10
    shifts := 5
    quality := some "pro" }

/-- C2 witness: the concrete "pro" request resolves to the fine-tuned
model with overlap 0.25 and shifts 1 despite requesting 0.7 / 5. -/
theorem C2_witness :
    (resolve_parameters req_pro).model = "htdemucs_ft" ∧
    (resolve_parameters req_pro).overlap = 1/4 ∧
    (resolve_parameters req_pro).shifts = 1 :=
  (C2_pro_quality_resolution req_pro).1 rfl rfl

/-! ## Claim C3 -/

/-- C3: any request whose selected stems contain "guitar" or "piano"
resolves to the six-stem model, whatever the requested model and quality;
in particular the "pro" model upgrade (which only fires on "htdemucs")
never rewrites it. -/
theorem C3_six_stem_override (req : SeparationRequest) (stems : List String)
    (hsel : req.selected_stems = some stems)
    (hgp : stems.contains "guitar" = true ∨ stems.contains "piano" = true) :
    (resolve_parameters req).model = "htdemucs_6s" := by
  have hne : stems.isEmpty = false := by
    cases stems with
    | nil => simp at hgp
    | cons a t => rfl
  have hmem : "guitar" ∈ stems ∨ "piano" ∈ stems := by
    rcases hgp with h | h
    · exact Or.inl (by simpa using h)
    · exact Or.inr (by simpa using h)
  have hm : model_after_stems req = "htdemucs_6s" := by
    unfold model_after_stems
    rw [hsel]
    rcases hmem with h | h <;> simp [hne, h]
  unfold resolve_parameters
  by_cases hq : req.quality = some "pro" <;> simp [hq, hm]

/-- A concrete "pro" request selecting guitar (plus vocals) on the base
model. -/
def req_guitar : SeparationRequest :=
  { audio_url := "http://example.com/a.mp3"
    model := "htdemucs"
    quality := some "pro"
    selected_stems := some ["guitar", "vocals"] }

/-- C3 witness: the concrete guitar request resolves to "htdemucs_6s"
even under "pro" quality. -/
theorem C3_witness : (resolve_parameters req_guitar).model = "htdemucs_6s" :=
  C3_six_stem_override req_guitar ["guitar", "vocals"] rfl (Or.inl (by decide))

/-! ## Claim C4 -/

/-- C4: a singleton selected-stems list whose entry is a recognized stem
name overrides the two-stem target with that entry; a singleton outside
the recognized set leaves the request's two-stem target unchanged. -/
theorem C4_single_stem_target (req : SeparationRequest) (s : String)
    (hsel : req.selected_stems = some [s]) :
    (s ∈ valid_two_stem_targets → (resolve_parameters req).two_stems = s) ∧
    (s ∉ valid_two_stem_targets →
      (resolve_parameters req).two_stems = req.two_stems) := by
  rw [resolve_parameters_two_stems]
  unfold two_stems_after_selection
  rw [hsel]
  constructor
  · intro hmem
    simp [hmem]
  · intro hmem
    simp [hmem]

/-- A concrete request selecting exactly the drums stem. -/
def req_drums : SeparationRequest :=
  { audio_url := "http://example.com/a.mp3"
    selected_stems := some ["drums"] }

/-- C4 witness: selecting exactly ["drums"] puts the resolver in two-stem
mode targeting "drums". -/
theorem C4_witness : (resolve_parameters req_drums).two_stems = "drums" :=
  (C4_single_stem_target req_drums "drums" rfl).1 (by decide)

/-! ## Concrete collaborators for witnesses -/

/-- A concrete request with all defaults, whose URL carries the
"audio-files" marker followed by "U1". -/
def req_basic : SeparationRequest :=
  { audio_url := "https://example.com/storage/audio-files/U1/song.mp3" }

/-- An unconfigured storage client. -/
def storage_off : StorageState :=
  { configured := false, upload_result := fun _ _ _ => none }

/-- A configured storage client whose uploads all succeed with a fixed
URL. -/
def storage_on : StorageState :=
  { configured := true, upload_result := fun _ _ _ => some "https://cdn.example.com/u" }

/-- A remote call that always raises with message "boom". -/
def demucs_fail : DemucsArgs → Except String (List OutputEntry) :=
  fun _ => Except.error "boom"

/-- An output entry with a readable local path. -/
def out_good : OutputEntry := { path := some "/tmp/good.wav" }

/-- A second output entry with a readable local path. -/
def out_good2 : OutputEntry := { path := some "/tmp/good2.wav" }

/-- An output entry exposing no local path at all. -/
def out_bad : OutputEntry := { path := none }

/-- A remote call that returns one unreadable entry followed by two
readable ones. -/
def demucs_mixed : DemucsArgs → Except String (List OutputEntry) :=
  fun _ => Except.ok [out_bad, out_good, out_good2]

/-- A filesystem on which exactly the two good paths exist. -/
def fs_good : String → Bool :=
  fun p => p == "/tmp/good.wav" || p == "/tmp/good2.wav"

/-- An empty filesystem. -/
def fs_none : String → Bool := fun _ => false

/-! ## Claim C5 -/

/-- C5: when the remote separation call raises with message `msg`, the
handler fails as a whole with HTTP 500 and detail
"Failed to complete separation: " ++ msg, and attempts no storage
upload (so no partial result is returned). -/
theorem C5_upstream_failure (req : SeparationRequest)
    (demucs_run : DemucsArgs → Except String (List OutputEntry))
    (storage : StorageState) (fs : String → Bool) (msg : String)
    (hrun : demucs_run (demucs_args_of req) = Except.error msg) :
    (separate_audio req demucs_run storage fs).result =
      Except.error
        { status_code := 500
          detail := "Failed to complete separation: " ++ msg } ∧
    (separate_audio req demucs_run storage fs).upload_attempts = [] := by
  unfold separate_audio
  rw [hrun]
  exact ⟨rfl, rfl⟩

/-- C5 witness: a concrete request against an always-raising remote call. -/
theorem C5_witness :
    (separate_audio req_basic demucs_fail storage_on fs_good).result =
      Except.error
        { status_code := 500
          detail := "Failed to complete separation: " ++ "boom" } ∧
    (separate_audio req_basic demucs_fail storage_on fs_good).upload_attempts = [] :=
  C5_upstream_failure req_basic demucs_fail storage_on fs_good "boom" rfl

/-! ## Claim C6 -/

/-- With an unconfigured storage client, every record the output loop
produces carries a null URL. -/
lemma process_outputs_urls_none (storage : StorageState) (fs : String → Bool)
    (two_stems model user_id : String) (hcfg : storage.configured = false) :
    ∀ (outputs : List OutputEntry) (i : Nat)
      (r : OutputFileRecord),
      r ∈ (process_outputs storage fs two_stems model user_id i outputs).2.1 →
      r.url = none := by
  intro outputs
  induction outputs with
  | nil =>
      intro i r hr
      simp [process_outputs] at hr
  | cons e rest ih =>
      intro i r hr
      rw [process_outputs] at hr
      cases h : local_path fs e with
      | none =>
          rw [h] at hr
          exact ih (i + 1) r hr
      | some p =>
          rw [h] at hr
          simp only [List.mem_cons] at hr
          rcases hr with rfl | hr
          · simp [upload_file_to_supabase, hcfg]
          · exact ih (i + 1) r hr

/-- C6: with the storage client unconfigured, every per-file upload
returns no URL (without raising), and a request whose remote call
succeeds still completes: the handler returns an `Except.ok` (HTTP 200)
response with status "completed" whose output entries all have a null
url. -/
theorem C6_unconfigured_storage (req : SeparationRequest)
    (demucs_run : DemucsArgs → Except String (List OutputEntry))
    (storage : StorageState) (fs : String → Bool) (outputs : List OutputEntry)
    (hcfg : storage.configured = false)
    (hrun : demucs_run (demucs_args_of req) = Except.ok outputs) :
    (∀ p s u, upload_file_to_supabase storage p s u = none) ∧
    ∃ resp, (separate_audio req demucs_run storage fs).result = Except.ok resp ∧
      resp.status = "completed" ∧
      ∀ f ∈ resp.output_files, f.url = none := by
  constructor
  · intro p s u
    simp [upload_file_to_supabase, hcfg]
  · unfold separate_audio
    rw [hrun]
    refine ⟨_, rfl, rfl, ?_⟩
    intro f hf
    exact process_outputs_urls_none storage fs _ _ _ hcfg outputs 0 f hf

/-- C6 witness: a concrete successful separation with the storage client
unconfigured. -/
theorem C6_witness :
    (∀ p s u, upload_file_to_supabase storage_off p s u = none) ∧
    ∃ resp, (separate_audio req_basic demucs_mixed storage_off fs_good).result = Except.ok resp ∧
      resp.status = "completed" ∧
      ∀ f ∈ resp.output_files, f.url = none :=
  C6_unconfigured_storage req_basic demucs_mixed storage_off fs_good
    [out_bad, out_good, out_good2] rfl rfl

/-! ## Claim C10 -/

/-- C10: the request's `audio_format` is passed unchanged to the remote
call, and on success the response's `parameters.audio_format` equals it
unchanged as well. -/
theorem C10_audio_format_passthrough (req : SeparationRequest)
    (demucs_run : DemucsArgs → Except String (List OutputEntry))
    (storage : StorageState) (fs : String → Bool) :
    (separate_audio req demucs_run storage fs).demucs_args.audio_format =
      req.audio_format ∧
    ∀ resp, (separate_audio req demucs_run storage fs).result = Except.ok resp →
      resp.parameters.audio_format = req.audio_format := by
  unfold separate_audio
  cases h : demucs_run (demucs_args_of req) with
  | error msg =>
      refine ⟨by simp [demucs_args_of], ?_⟩
      intro resp hresp
      simp at hresp
  | ok outputs =>
      refine ⟨by simp [demucs_args_of], ?_⟩
      intro resp hresp
      simp only [Except.ok.injEq] at hresp
      rw [← hresp]

/-- C10 witness: at a concrete request and collaborators, with the
default "wav" format. -/
theorem C10_witness :
    (separate_audio req_basic demucs_mixed storage_on fs_good).demucs_args.audio_format = "wav" ∧
    ∀ resp, (separate_audio req_basic demucs_mixed storage_on fs_good).result = Except.ok resp →
      resp.parameters.audio_format = "wav" :=
  C10_audio_format_passthrough req_basic demucs_mixed storage_on fs_good

/-! ## Claim C7 -/

/-- Characterization of the output loop: the upload attempts, the
response records and the cleanup queue are exactly the readable entries
of the enumerated provider output, in order, each keeping its
`enumerate` index. -/
lemma process_outputs_eq (storage : StorageState) (fs : String → Bool)
    (two_stems model user_id : String) (outputs : List OutputEntry) :
    ∀ i : Nat,
      process_outputs storage fs two_stems model user_id i outputs =
        ((outputs.enumFrom i).filterMap fun q => (local_path fs q.2).map fun p =>
            UploadAttempt.mk p (get_stem_name q.1 two_stems model) user_id,
         (outputs.enumFrom i).filterMap fun q => (local_path fs q.2).map fun p =>
            OutputFileRecord.mk q.1
              (upload_file_to_supabase storage p (get_stem_name q.1 two_stems model) user_id)
              (get_stem_name q.1 two_stems model),
         (outputs.enumFrom i).filterMap fun q => local_path fs q.2) := by
  induction outputs with
  | nil => intro i; rfl
  | cons e rest ih =>
      intro i
      rw [process_outputs]
      cases h : local_path fs e with
      | none =>
          simp only [List.enumFrom, List.filterMap_cons, h, Option.map_none']
          exact ih (i + 1)
      | some p =>
          simp only [List.enumFrom, List.filterMap_cons, h, Option.map_some']
          rw [ih (i + 1)]

/-- Every record the output loop produces has an index at least the
starting index. -/
lemma process_records_index_ge (storage : StorageState) (fs : String → Bool)
    (two_stems model user_id : String) :
    ∀ (outputs : List OutputEntry) (i : Nat) (r : OutputFileRecord),
      r ∈ (process_outputs storage fs two_stems model user_id i outputs).2.1 →
      i ≤ r.index := by
  intro outputs
  induction outputs with
  | nil =>
      intro i r hr
      simp [process_outputs] at hr
  | cons e rest ih =>
      intro i r hr
      rw [process_outputs] at hr
      cases h : local_path fs e with
      | none =>
          rw [h] at hr
          have := ih (i + 1) r hr
          omega
      | some p =>
          rw [h] at hr
          simp only [List.mem_cons] at hr
          rcases hr with rfl | hr
          · exact Nat.le_refl _
          · have := ih (i + 1) r hr
            omega

/-- A provider entry with no readable local path contributes no record:
no record's index points at it. -/
lemma process_records_index_ne (storage : StorageState) (fs : String → Bool)
    (two_stems model user_id : String) :
    ∀ (outputs : List OutputEntry) (i j : Nat) (hj : j < outputs.length),
      local_path fs (outputs.get ⟨j, hj⟩) = none →
      ∀ r ∈ (process_outputs storage fs two_stems model user_id i outputs).2.1,
        r.index ≠ i + j := by
  intro outputs
  induction outputs with
  | nil =>
      intro i j hj
      simp at hj
  | cons e rest ih =>
      intro i j hj hnone r hr
      rw [process_outputs] at hr
      cases h : local_path fs e with
      | none =>
          rw [h] at hr
          cases j with
          | zero =>
              have hge := process_records_index_ge storage fs two_stems model user_id
                rest (i + 1) r hr
              omega
          | succ j =>
              have hj2 : j < rest.length := by
                simpa using Nat.lt_of_succ_lt_succ hj
              have := ih (i + 1) j hj2 hnone r hr
              omega
      | some p =>
          rw [h] at hr
          simp only [List.mem_cons] at hr
          cases j with
          | zero =>
              rw [show (e :: rest).get ⟨0, hj⟩ = e from rfl] at hnone
              rw [hnone] at h
              exact absurd h (by simp)
          | succ j =>
              rcases hr with rfl | hr
              · simp
              · have hj2 : j < rest.length := by
                  simpa using Nat.lt_of_succ_lt_succ hj
                have := ih (i + 1) j hj2 hnone r hr
                omega

/-- C7: when the remote call succeeds, every provider entry without a
readable local path is skipped — no upload is attempted for it and no
record with its index appears in `output_files` — while all readable
entries are processed in provider order, each keeping its positional
index; the request as a whole still completes. -/
theorem C7_unreadable_outputs_skipped (req : SeparationRequest)
    (demucs_run : DemucsArgs → Except String (List OutputEntry))
    (storage : StorageState) (fs : String → Bool) (outputs : List OutputEntry)
    (hrun : demucs_run (demucs_args_of req) = Except.ok outputs) :
    ∃ resp, (separate_audio req demucs_run storage fs).result = Except.ok resp ∧
      resp.status = "completed" ∧
      resp.output_files = outputs.enum.filterMap (fun q =>
        (local_path fs q.2).map fun p =>
          OutputFileRecord.mk q.1
            (upload_file_to_supabase storage p
              (get_stem_name q.1 (resolve_parameters req).two_stems (resolve_parameters req).model)
              (extract_user_id req.audio_url))
            (get_stem_name q.1 (resolve_parameters req).two_stems (resolve_parameters req).model)) ∧
      (separate_audio req demucs_run storage fs).upload_attempts = outputs.enum.filterMap (fun q =>
        (local_path fs q.2).map fun p =>
          UploadAttempt.mk p
            (get_stem_name q.1 (resolve_parameters req).two_stems (resolve_parameters req).model)
            (extract_user_id req.audio_url)) ∧
      ∀ (j : Nat) (hj : j < outputs.length),
        local_path fs (outputs.get ⟨j, hj⟩) = none →
        ∀ r ∈ resp.output_files, r.index ≠ j := by
  unfold separate_audio
  rw [hrun]
  refine ⟨_, rfl, rfl, ?_, ?_, ?_⟩
  · have hpo := process_outputs_eq storage fs (resolve_parameters req).two_stems
      (resolve_parameters req).model (extract_user_id req.audio_url) outputs 0
    exact congrArg (fun t => t.2.1) hpo
  · have hpo := process_outputs_eq storage fs (resolve_parameters req).two_stems
      (resolve_parameters req).model (extract_user_id req.audio_url) outputs 0
    exact congrArg (fun t => t.1) hpo
  · intro j hj hnone r hr
    have hne := process_records_index_ne storage fs (resolve_parameters req).two_stems
      (resolve_parameters req).model (extract_user_id req.audio_url) outputs 0 j hj hnone r hr
    simpa using hne

/-- C7 witness: a concrete provider return with an unreadable first entry
(no path) followed by two readable entries. -/
theorem C7_witness :
    ∃ resp, (separate_audio req_basic demucs_mixed storage_on fs_good).result = Except.ok resp ∧
      resp.status = "completed" ∧
      resp.output_files = ([out_bad, out_good, out_good2] : List OutputEntry).enum.filterMap (fun q =>
        (local_path fs_good q.2).map fun p =>
          OutputFileRecord.mk q.1
            (upload_file_to_supabase storage_on p
              (get_stem_name q.1 (resolve_parameters req_basic).two_stems
                (resolve_parameters req_basic).model)
              (extract_user_id req_basic.audio_url))
            (get_stem_name q.1 (resolve_parameters req_basic).two_stems
              (resolve_parameters req_basic).model)) ∧
      (separate_audio req_basic demucs_mixed storage_on fs_good).upload_attempts =
        ([out_bad, out_good, out_good2] : List OutputEntry).enum.filterMap (fun q =>
          (local_path fs_good q.2).map fun p =>
            UploadAttempt.mk p
              (get_stem_name q.1 (resolve_parameters req_basic).two_stems
                (resolve_parameters req_basic).model)
              (extract_user_id req_basic.audio_url)) ∧
      ∀ (j : Nat) (hj : j < ([out_bad, out_good, out_good2] : List OutputEntry).length),
        local_path fs_good (([out_bad, out_good, out_good2] : List OutputEntry).get ⟨j, hj⟩) = none →
        ∀ r ∈ resp.output_files, r.index ≠ j :=
  C7_unreadable_outputs_skipped req_basic demucs_mixed storage_on fs_good
    [out_bad, out_good, out_good2] rfl

/-! ## Claim C8 -/

/-- Stepping the user-id scan over a non-marker head (with a nonempty
tail). -/
lemma find_user_id_cons (a b : String) (t : List String)
    (ha : a ≠ "audio-files") :
    find_user_id (a :: b :: t) = find_user_id (b :: t) := by
  rw [find_user_id]
  simp [ha]

/-- The scan finds the part after the first "audio-files" marker that has
a following part. -/
lemma find_user_id_append (pre : List String) (next : String) (rest : List String)
    (hpre : "audio-files" ∉ pre) :
    find_user_id (pre ++ "audio-files" :: next :: rest) = some next := by
  induction pre with
  | nil =>
      rw [List.nil_append, find_user_id]
      simp
  | cons a pre ih =>
      have ha : a ≠ "audio-files" := fun h => hpre (by simp [h])
      have hpre2 : "audio-files" ∉ pre := fun h => hpre (by simp [h])
      cases pre with
      | nil =>
          show find_user_id (a :: "audio-files" :: next :: rest) = some next
          rw [find_user_id_cons a "audio-files" (next :: rest) ha, find_user_id]
          simp
      | cons b pre2 =>
          show find_user_id (a :: b :: (pre2 ++ "audio-files" :: next :: rest)) = some next
          rw [find_user_id_cons a b _ ha]
          exact ih hpre2

/-- If the scan succeeds, the parts decompose around a marker followed by
the found value. -/
lemma find_user_id_some_split : ∀ (l : List String) (v : String),
    find_user_id l = some v →
    ∃ pre rest, l = pre ++ "audio-files" :: v :: rest := by
  intro l
  induction l with
  | nil =>
      intro v h
      simp [find_user_id] at h
  | cons a t ih =>
      intro v h
      cases t with
      | nil =>
          rw [find_user_id] at h
          simp at h
      | cons b t2 =>
          by_cases ha : a = "audio-files"
          · subst ha
            rw [find_user_id] at h
            simp at h
            exact ⟨[], t2, by simp [h]⟩
          · rw [find_user_id_cons a b t2 ha] at h
            obtain ⟨pre, rest, hs⟩ := ih v h
            exact ⟨a :: pre, rest, by simp [hs]⟩

/-- A URL whose parts contain no marker segment followed by another
segment resolves to the anonymous fallback. -/
lemma extract_user_id_no_marker (url : String)
    (h : ¬ ∃ pre next rest,
      split_slash url.data = pre ++ "audio-files" :: next :: rest) :
    extract_user_id url = "anonymous" := by
  unfold extract_user_id
  cases hf : find_user_id (split_slash url.data) with
  | none => rfl
  | some v =>
      obtain ⟨pre, rest, hs⟩ := find_user_id_some_split _ v hf
      exact absurd ⟨pre, v, rest, hs⟩ h

/-- C8: a request whose URL parts carry the (first) "audio-files" marker
segment followed by "U1", with model "htdemucs", two_stems "None",
quality "standard" and no selected stems, derives owner id "U1" and
passes its own overlap and shifts through unchanged; a URL with no
marker segment followed by another segment derives the fixed fallback
"anonymous". -/
theorem C8_owner_id_resolution (req : SeparationRequest) (pre rest : List String)
    (hsplit : split_slash req.audio_url.data = pre ++ "audio-files" :: "U1" :: rest)
    (hpre : "audio-files" ∉ pre)
    (hmodel : req.model = "htdemucs") (htwo : req.two_stems = "None")
    (hq : req.quality = some "standard") (hsel : req.selected_stems = none) :
    extract_user_id req.audio_url = "U1" ∧
    (resolve_parameters req).overlap = req.overlap ∧
    (resolve_parameters req).shifts = req.shifts ∧
    ∀ url : String,
      (¬ ∃ p n r, split_slash url.data = p ++ "audio-files" :: n :: r) →
      extract_user_id url = "anonymous" := by
  have hnp : req.quality ≠ some "pro" := by rw [hq]; simp
  refine ⟨?_, (resolve_parameters_not_pro req hnp).1,
    (resolve_parameters_not_pro req hnp).2.1,
    fun url h => extract_user_id_no_marker url h⟩
  unfold extract_user_id
  rw [hsplit, find_user_id_append pre "U1" rest hpre]
  simp

/-- A concrete C8 request on the base model with standard quality. -/
def req_c8 : SeparationRequest :=
  { audio_url := "https://example.com/storage/audio-files/U1/song.mp3"
    model := "htdemucs"
    overlap := 3/10
    shifts := 2 }

/-- C8 witness: at the concrete request, whose URL splits with the marker
at position 4. -/
theorem C8_witness :
    extract_user_id req_c8.audio_url = "U1" ∧
    (resolve_parameters req_c8).overlap = req_c8.overlap ∧
    (resolve_parameters req_c8).shifts = req_c8.shifts ∧
    ∀ url : String,
      (¬ ∃ p n r, split_slash url.data = p ++ "audio-files" :: n :: r) →
      extract_user_id url = "anonymous" :=
  C8_owner_id_resolution req_c8 ["https:", "", "example.com", "storage"] ["song.mp3"]
    (by decide) (by decide) rfl rfl rfl rfl
